import Mathlib

/-
Verification development for the invariant-verification engine and the
transactional contract framework of the qa-automation repository.

Shallow embedding conventions:
  - JavaScript BigInt values are modelled as Int (or Nat where the wire
    format is unsigned), with BigInt division modelled by Int.tdiv
    (truncation toward zero, as in JavaScript).
  - JavaScript double-precision numbers are modelled as rationals.  Where a
    claim depends on the lossiness of the Number conversion of a 64-bit
    integer, that conversion is modelled bit-accurately by jsNumber
    (round to nearest, 53 significant bits, ties to even); elsewhere the
    float payload is carried exactly.
  - Hex-string parsing (BigInt(bitsHex)) is abstracted: decoders take the
    already-parsed nonnegative bit pattern.
  - JavaScript Set semantics are modelled with deduplicated lists (only
    cardinality and membership are observed by the rules), JavaScript Map
    construction from an entry list with last-entry-wins lookup.
-/

/-- Approximate Q64.64 decoder from utils.js (fixedPoint128ToFloatFromHexString):
intPart = bits >> 64, fracPart = bits AND (2^64 - 1), result
intPart + fracPart / 2^64.  Numeric payload carried exactly in the rationals. -/
def fixedPoint128ToFloatFromHexString (bits : Nat) : ℚ :=
  ((bits >>> 64 : Nat) : ℚ) + ((bits &&& (2 ^ 64 - 1) : Nat) : ℚ) / 2 ^ 64

/-- Approximate Q96.32 decoder from unstakeContract.js
(fixedI96F32ToFloatFromHexString): intPart = bits >> 32, fracPart =
bits AND (2^96 - 1) (MASK_96, exactly as in the source), result
intPart + fracPart / 2^32. -/
def fixedI96F32ToFloatFromHexString (bits : Nat) : ℚ :=
  ((bits >>> 32 : Nat) : ℚ) + ((bits &&& (2 ^ 96 - 1) : Nat) : ℚ) / 2 ^ 32

/-- Exact Q96.32 decoder from unstakeContract.js (fixedU96F32ToBigNumber):
arbitrary-precision intPart = bits div 2^32, fracPart = bits mod 2^32,
result intPart + fracPart / 2^32.  BigNumber arithmetic modelled exactly. -/
def fixedU96F32ToBigNumber (bits : Nat) : ℚ :=
  ((bits / 2 ^ 32 : Nat) : ℚ) + ((bits % 2 ^ 32 : Nat) : ℚ) / 2 ^ 32

/-- Exact Q64.64 decoder from unstakeContract.js (fixedU64F64ToBigNumber). -/
def fixedU64F64ToBigNumber (bits : Nat) : ℚ :=
  ((bits / 2 ^ 64 : Nat) : ℚ) + ((bits % 2 ^ 64 : Nat) : ℚ) / 2 ^ 64

/-- Decoded value stated by the spec for a decoder of fractional width w:
(b >> w) + (b mod 2^w) / 2^w.  Written from the words of the spec, for the
refinement comparison in claim C1. -/
def specFixedDecode (bits fracWidth : Nat) : ℚ :=
  ((bits / 2 ^ fracWidth : Nat) : ℚ) + ((bits % 2 ^ fracWidth : Nat) : ℚ) / 2 ^ fracWidth

/-- Fuel-bounded base-2 logarithm (structural recursion so that concrete
evaluations reduce in the kernel). -/
def log2Fuel : Nat → Nat → Nat
  | 0, _ => 0
  | fuel + 1, n => if 2 ≤ n then log2Fuel fuel (n / 2) + 1 else 0

/-- Model of the JavaScript Number(n) conversion of a nonnegative integer:
round to the nearest double-precision value (53 significant bits, ties to
even).  Exact below 2^53. -/
def jsNumber (n : Nat) : Nat :=
  if n < 2 ^ 53 then n
  else
    let s := log2Fuel 128 n - 52
    let q := n / 2 ^ s
    let r := n % 2 ^ s
    let half := 2 ^ (s - 1)
    let q2 := if r < half then q else if half < r then q + 1 else if q % 2 = 0 then q else q + 1
    q2 * 2 ^ s

/-- Lossy float Q64.64 decoder used by checkStakingConstraints
(fixedU64F64ToFloatFromHexString): Number(bits >> 64) + Number(bits AND
(2^64 - 1)) / 2^64.  The Number conversions, where the 64-bit operands exceed
float precision, are modelled by jsNumber; the final division by 2^64 and the
addition are carried exactly. -/
def fixedU64F64ToFloatFromHexString (bits : Nat) : ℚ :=
  (jsNumber (bits >>> 64) : ℚ) + (jsNumber (bits &&& (2 ^ 64 - 1)) : ℚ) / 2 ^ 64

/-- Per-(netuid, hotkey) accumulation of Alpha shares in checkStakingConstraints:
the accumulator starts at the JavaScript number 0 and each entry adds the
float-decoded share (float additions carried exactly). -/
def sumAlphaShares (shareBits : List Nat) : ℚ :=
  shareBits.foldl (fun prev b => prev + fixedU64F64ToFloatFromHexString b) 0

/-- Exact per-hotkey Alpha sum demanded by the spec (exact decoder, no floats).
Written from the words of the spec, for the comparison in claim C5. -/
def specExactAlphaSum (shareBits : List Nat) : ℚ :=
  shareBits.foldl (fun prev b => prev + fixedU64F64ToBigNumber b) 0

/-- Untyped approx-equal with absolute epsilon (the unstakeContract.js variant
without a type gate), on the number path used by checkStakingConstraints. -/
def approxEqualAbsNumber (a b epsilon : ℚ) : Bool :=
  decide ((if b ≤ a then a - b else b - a) ≤ epsilon)

/-- Rule 3 comparison of checkStakingConstraints at one (netuid, hotkey):
the float-decoded TotalHotkeyShares value is compared with the float
accumulation of the Alpha shares under absolute epsilon expected / 1000. -/
def stakingShareViolation (shareBits : List Nat) (totalBits : Nat) : Bool :=
  let expected := sumAlphaShares shareBits
  let actual := fixedU64F64ToFloatFromHexString totalBits
  ! approxEqualAbsNumber actual expected (expected / 1000)

/-- Dynamic numeric value of the JavaScript runtime: a BigInt, a double
(number), or a bignumber.js decimal. -/
inductive JsNum where
  | bigintV : Int → JsNum
  | numberV : ℚ → JsNum
  | bignumV : ℚ → JsNum
deriving DecidableEq

/-- Test for the JavaScript typeof x === bigint check. -/
def JsNum.isBigInt : JsNum → Bool
  | .bigintV _ => true
  | _ => false

/-- BigInt-only approx-equal from utils.js: unless a, b and epsilon are all
BigInt it throws TypeError (modelled as Except.error); otherwise it returns
the comparison of the absolute difference with epsilon. -/
def approxEqualAbs : JsNum → JsNum → JsNum → Except String Bool
  | .bigintV a, .bigintV b, .bigintV epsilon =>
    .ok (decide ((if b ≤ a then a - b else b - a) ≤ epsilon))
  | _, _, _ => .error "Use BigInt for a, b, and epsilon"

/-- Result record of BaseContract.executeFlow from types.js: ok flag, stage
label, the precondition snapshot and action result when present, and the
error message when present. -/
structure FlowResult (P A : Type) where
  ok : Bool
  stage : String
  pre : Option P
  actionResult : Option A
  error : Option String

/-- State-threading embedding of BaseContract.executeFlow from types.js.
Each stage is a function from a world state to an updated world state and an
outcome (Except.error models a raised exception); the world threading mirrors
the strictly sequential await of the three stages with early return. -/
def executeFlowW (W P A : Type)
    (precondition : W → W × Except String P)
    (action : W → W × Except String A)
    (postcondition : P → A → W → W × Except String Bool)
    (w : W) : W × FlowResult P A :=
  match precondition w with
  | (w1, .error e) =>
    (w1, ⟨false, "precondition", none, none, some ("Precondition error: " ++ e)⟩)
  | (w1, .ok p) =>
    match action w1 with
    | (w2, .error e) =>
      (w2, ⟨false, "action", some p, none, some ("Action error: " ++ e)⟩)
    | (w2, .ok a) =>
      match postcondition p a w2 with
      | (w3, .error e) =>
        (w3, ⟨false, "postcondition", some p, some a,
              some ("Postcondition error: " ++ e)⟩)
      | (w3, .ok postOk) =>
        (w3, ⟨postOk, "done", some p, some a,
              if postOk then none else some "Postcondition returned false"⟩)

/-- Pure view of executeFlow: the three stage outcomes are fixed in advance
and no world state is observed. -/
def executeFlow (P A : Type) (pre : Except String P) (act : Except String A)
    (post : P → A → Except String Bool) : FlowResult P A :=
  (executeFlowW Unit P A (fun w => (w, pre)) (fun w => (w, act))
    (fun p a w => (w, post p a)) ()).2

/-- Invocation counters for the three pipeline stages. -/
structure StageCounters where
  preCalls : Nat
  actCalls : Nat
  postCalls : Nat
deriving DecidableEq

/-- Instrumented pipeline: every invocation of a stage bumps the matching
counter, and the outcome of the stage is chosen by an oracle that may inspect
the counter state at the moment of the call. -/
def instrumentedFlow (P A : Type)
    (preO : StageCounters → Except String P)
    (actO : StageCounters → Except String A)
    (postO : P → A → StageCounters → Except String Bool)
    (c : StageCounters) : StageCounters × FlowResult P A :=
  executeFlowW StageCounters P A
    (fun s => (⟨s.preCalls + 1, s.actCalls, s.postCalls⟩, preO s))
    (fun s => (⟨s.preCalls, s.actCalls + 1, s.postCalls⟩, actO s))
    (fun p a s => (⟨s.preCalls, s.actCalls, s.postCalls + 1⟩, postO p a s))
    c

/-- Stake computation from utils.js (getStake): full-precision BigInt
arithmetic, with a zero guard on the decoded TotalHotkeyShares value that
short-circuits to 0 before any division.  BigInt division truncates toward
zero, hence Int.tdiv. -/
def getStake (alphaShare totalShares hotkeyAlpha : Int) : Int :=
  if totalShares = 0 then 0 else Int.tdiv (hotkeyAlpha * alphaShare) totalShares

/-- Stake computation from unstakeContract.js (the second getStake variant):
both FixedU128 values are decoded with the lossy float decoder, the guard
tests the decoded float total for zero, and the stake is
parseInt(alphaShare * hotkeyAlpha / totalHotkeyShares), a double-precision
float quotient truncated to an integer.  The float multiplication and
division are carried exactly; parseInt on the nonnegative quotients arising
here is modelled by the floor (below 1e21, parseInt of the decimal rendering
truncates toward zero, which on nonnegative values is the floor). -/
def getStakeUnstake (alphaShareBits totalSharesBits hotkeyAlpha : Nat) : Int :=
  let alphaShare := fixedU64F64ToFloatFromHexString alphaShareBits
  let totalHotkeyShares := fixedU64F64ToFloatFromHexString totalSharesBits
  if totalHotkeyShares = 0 then 0
  else ⌊alphaShare * (hotkeyAlpha : ℚ) / totalHotkeyShares⌋

/-- Violations of the Keys/Uids bijection rule (checkKeysUidsConstraints,
per-netuid core), one constructor per err message shape, in source order. -/
inductive KUViolation where
  | hotSetMismatch : KUViolation
  | keysDistinctUidCount (found expected : Nat) : KUViolation
  | uidsDistinctUidCount (found expected : Nat) : KUViolation
  | keysUidRange : KUViolation
  | uidsUidRange : KUViolation
  | uidsEntryCount (found expected : Nat) : KUViolation
  | keysDupHot : KUViolation
  | keysToUidsMissing (uid : Nat) (hot : String) : KUViolation
  | keysToUidsMismatch (uid : Nat) (hot : String) (other : Nat) : KUViolation
  | uidsToKeysMissing (hot : String) (uid : Nat) : KUViolation
  | uidsToKeysMismatch (hot : String) (uid : Nat) (other : String) : KUViolation
deriving DecidableEq

/-- JavaScript Set equality check sEqual from checkKeysUidsConstraints:
same cardinality and every member of the first is a member of the second
(sets modelled as deduplicated lists). -/
def sEqual {α : Type} [DecidableEq α] (a b : List α) : Bool :=
  decide (a.length = b.length) && a.all (fun x => decide (x ∈ b))

/-- JavaScript Map lookup for a map built from an entry list: the last entry
with the requested key wins. -/
def mapGet {κ ν : Type} [DecidableEq κ] (entries : List (κ × ν)) (k : κ) : Option ν :=
  (entries.reverse.find? (fun e => decide (e.1 = k))).map (fun e => e.2)

/-- Per-netuid core of checkKeysUidsConstraints from constraints.js, checks
in source order: hotkey-set equality of the two maps, distinct-UID counts
against N, UID sets against 0..N-1, the Uids entry count, duplicate hotkey
values in Keys, then pointwise inversion Keys to Uids and Uids to Keys.
keys holds the (uid, hotkey) entries of Keys, uids the (hotkey, uid) entries
of Uids. -/
def checkKeysUidsCore (keys : List (Nat × String)) (uids : List (String × Nat))
    (N : Nat) : List KUViolation :=
  let uidsFromKeys := (keys.map (fun e => e.1)).dedup
  let uidsFromUids := (uids.map (fun e => e.2)).dedup
  let hotsFromKeys := (keys.map (fun e => e.2)).dedup
  let hotsFromUids := (uids.map (fun e => e.1)).dedup
  let v0 := if sEqual hotsFromKeys hotsFromUids then [] else [KUViolation.hotSetMismatch]
  let v1a := if uidsFromKeys.length = N then []
    else [KUViolation.keysDistinctUidCount uidsFromKeys.length N]
  let v1b := if uidsFromUids.length = N then []
    else [KUViolation.uidsDistinctUidCount uidsFromUids.length N]
  let expected := List.range N
  let v2a := if sEqual uidsFromKeys expected then [] else [KUViolation.keysUidRange]
  let v2b := if sEqual uidsFromUids expected then [] else [KUViolation.uidsUidRange]
  let v3 := if uids.length = N then []
    else [KUViolation.uidsEntryCount uids.length N]
  let v4 := if hotsFromKeys.length = keys.length then [] else [KUViolation.keysDupHot]
  let v5 := keys.foldl (fun acc e =>
    match mapGet uids e.2 with
    | none => acc ++ [KUViolation.keysToUidsMissing e.1 e.2]
    | some u => if u = e.1 then acc else acc ++ [KUViolation.keysToUidsMismatch e.1 e.2 u]) []
  let v6 := uids.foldl (fun acc e =>
    match mapGet keys e.2 with
    | none => acc ++ [KUViolation.uidsToKeysMissing e.1 e.2]
    | some h => if h = e.1 then acc else acc ++ [KUViolation.uidsToKeysMismatch e.1 e.2 h]) []
  v0 ++ v1a ++ v1b ++ v2a ++ v2b ++ v3 ++ v4 ++ v5 ++ v6

/-- Wire-format fixed-point unit of the delegation proportions (u64 max),
the SCALE constant of checkParentChildRelationship. -/
def SCALE : Nat := 18446744073709551615

/-- Sum of a proportion list (BigInt accumulation from 0). -/
def propSum (proportions : List Nat) : Nat :=
  proportions.foldl (fun a b => a + b) 0

/-- ChildKeys proportion-sum check of checkParentChildRelationship: a
violation is reported when the sum exceeds SCALE or equals zero. -/
def childKeysSumViolation (proportions : List Nat) : Bool :=
  decide (SCALE < propSum proportions) || decide (propSum proportions = 0)

/-- PendingChildKeys proportion-sum check of checkParentChildRelationship:
a violation is reported only when the sum exceeds SCALE. -/
def pendingChildKeysSumViolation (proportions : List Nat) : Bool :=
  decide (SCALE < propSum proportions)

/-- Violations emitted by the cycle detection of checkParentChildRelationship:
the dedicated self-loop message and the generic cycle message with its path. -/
inductive CycleViolation where
  | selfLoop (node : String) : CycleViolation
  | cycle (path : List String) : CycleViolation
deriving DecidableEq

/-- Adjacency lookup (Map.get with default empty set). -/
def adjGet (adj : List (String × List String)) (u : String) : List String :=
  match adj.find? (fun e => decide (e.1 = u)) with
  | some e => e.2
  | none => []

/-- Mutable state of the cycle-detection traversal: gray marks (in-progress),
black marks (done), the explicit path stack, and the violations emitted so
far.  A node absent from both mark lists is white (unvisited). -/
structure DfsState where
  gray : List String
  black : List String
  stack : List String
  violations : List CycleViolation

/-- Depth-first visit of one node, embedded from the dfs closure of
checkParentChildRelationship: mark gray and push; report a dedicated
violation for a self-loop; then for each neighbor, recurse when white, and
report the cycle path (stack from the first occurrence of the neighbor, plus
the neighbor) when gray; finally pop and mark black.  Fuel bounds the
recursion depth; any fuel of at least the node count is exact. -/
def dfsNode (adj : List (String × List String)) : Nat → String → DfsState → DfsState
  | 0, _, s => s
  | fuel + 1, u, s =>
    let s1 : DfsState := ⟨u :: s.gray, s.black, s.stack ++ [u], s.violations⟩
    let s2 : DfsState :=
      if u ∈ adjGet adj u then
        ⟨s1.gray, s1.black, s1.stack, s1.violations ++ [CycleViolation.selfLoop u]⟩
      else s1
    let s3 := (adjGet adj u).foldl (fun t v =>
      if v ∉ t.gray ∧ v ∉ t.black then dfsNode adj fuel v t
      else if v ∈ t.gray then
        let cyc := match t.stack.findIdx? (fun x => decide (x = v)) with
          | some idx => t.stack.drop idx ++ [v]
          | none => [v, u, v]
        ⟨t.gray, t.black, t.stack, t.violations ++ [CycleViolation.cycle cyc]⟩
      else t) s2
    ⟨s3.gray.erase u, s3.black ++ [u], s3.stack.dropLast, s3.violations⟩

/-- Per-netuid cycle detection of checkParentChildRelationship: run the
depth-first traversal from every still-white node of the adjacency list, in
key order, and collect the emitted violations. -/
def checkCycles (adj : List (String × List String)) : List CycleViolation :=
  let keysList := adj.map (fun e => e.1)
  let final := keysList.foldl (fun s u =>
    if u ∉ s.gray ∧ u ∉ s.black then dfsNode adj (keysList.length + 1) u s else s)
    ⟨[], [], [], []⟩
  final.violations

/-- Filter of checkLiquidity selecting the dtao subnets (SubnetMechanism
equal to 1). -/
def dtaoNetuids (netuids : List Nat) (mechanism : Nat → Nat) : List Nat :=
  netuids.filter (fun n => decide (mechanism n = 1))

/-- Subnet list checkLiquidity actually iterates: after filtering to the dtao
subnets (returning early when none exist), the list is overwritten with the
single element at index 9; JavaScript indexing past the end yields undefined,
modelled as none. -/
def liquidityCheckedNetuids (netuids : List Nat) (mechanism : Nat → Nat) :
    List (Option Nat) :=
  let dtao := dtaoNetuids netuids mechanism
  if dtao.isEmpty then [] else [dtao[9]?]

/-- Clamp helper box from constraints.js. -/
def box (value low high : ℚ) : ℚ :=
  if value ≤ low then low else if high ≤ value then high else value

/-- Helper: the JavaScript conditional absolute difference equals the
mathematical absolute value. -/
theorem if_sub_eq_abs {α : Type} [LinearOrderedAddCommGroup α] (x y : α) :
    (if y ≤ x then x - y else y - x) = |x - y| := by
  by_cases h : y ≤ x
  · rw [if_pos h, abs_of_nonneg (sub_nonneg.mpr h)]
  · rw [if_neg h, abs_of_neg (sub_neg.mpr (lt_of_not_le h)), neg_sub]

/-- Helper: the float Q64.64 decoder written with division and remainder in
place of shift and mask. -/
theorem fixedU64F64ToFloat_div_mod (b : Nat) :
    fixedU64F64ToFloatFromHexString b
      = (jsNumber (b / 2 ^ 64) : ℚ) + (jsNumber (b % 2 ^ 64) : ℚ) / 2 ^ 64 := by
  unfold fixedU64F64ToFloatFromHexString
  rw [Nat.shiftRight_eq_div_pow, Nat.and_pow_two_sub_one_eq_mod]

/-- Helper: value of the float Q64.64 decoder at the bit pattern 2^64. -/
theorem fixedU64F64ToFloat_at_pow64 :
    fixedU64F64ToFloatFromHexString (2 ^ 64) = 1 := by
  rw [fixedU64F64ToFloat_div_mod]
  have h1 : (2 ^ 64 : Nat) / 2 ^ 64 = 1 := by norm_num
  have h2 : (2 ^ 64 : Nat) % 2 ^ 64 = 0 := by norm_num
  rw [h1, h2]
  have h3 : jsNumber 1 = 1 := rfl
  have h4 : jsNumber 0 = 0 := rfl
  rw [h3, h4]
  norm_num

/-- Helper: value of the float Q64.64 decoder at the bit pattern 2^65. -/
theorem fixedU64F64ToFloat_at_pow65 :
    fixedU64F64ToFloatFromHexString (2 ^ 65) = 2 := by
  rw [fixedU64F64ToFloat_div_mod]
  have h1 : (2 ^ 65 : Nat) / 2 ^ 64 = 2 := by norm_num
  have h2 : (2 ^ 65 : Nat) % 2 ^ 64 = 0 := by norm_num
  rw [h1, h2]
  have h3 : jsNumber 2 = 2 := rfl
  have h4 : jsNumber 0 = 0 := rfl
  rw [h3, h4]
  norm_num

/-- C1: the Q64.64 approximate decoder satisfies the declared split formula
decoded b = (b >> 64) + (b mod 2^64) / 2^64 for every bit pattern; the Q96.32
approximate decoder fixedI96F32ToFloatFromHexString does not: at the bit
pattern 2^32 it returns 2, while the declared formula
(b >> 32) + (b mod 2^32) / 2^32 — and the exact sibling decoder
fixedU96F32ToBigNumber — give 1.  The fraction mask of the Q96.32 float
decoder is 2^96 - 1 instead of 2^32 - 1. -/
theorem c1_fixed_point_decoders :
    (∀ b : Nat, fixedPoint128ToFloatFromHexString b = specFixedDecode b 64)
    ∧ fixedI96F32ToFloatFromHexString (2 ^ 32) = 2
    ∧ specFixedDecode (2 ^ 32) 32 = 1
    ∧ fixedU96F32ToBigNumber (2 ^ 32) = 1 := by
  refine ⟨fun b => ?_, ?_, ?_, ?_⟩
  · unfold fixedPoint128ToFloatFromHexString specFixedDecode
    rw [Nat.shiftRight_eq_div_pow, Nat.and_pow_two_sub_one_eq_mod]
  · unfold fixedI96F32ToFloatFromHexString
    rw [Nat.shiftRight_eq_div_pow, Nat.and_pow_two_sub_one_eq_mod]
    have h1 : (2 ^ 32 : Nat) / 2 ^ 32 = 1 := by norm_num
    have h2 : (2 ^ 32 : Nat) % 2 ^ 96 = 2 ^ 32 := by norm_num
    rw [h1, h2]
    push_cast
    norm_num
  · unfold specFixedDecode
    norm_num
  · unfold fixedU96F32ToBigNumber
    norm_num

/-- C2 counterexample: a postcondition that returns false without raising
does not produce a result at stage postcondition; the stage field of the
result is done (the stage label postcondition is reserved for a postcondition
that raises), even though the message is exactly the expected one. -/
theorem c2_false_verdict_stage_counterexample :
    (executeFlow Nat Nat (Except.ok 0) (Except.ok 0) (fun _ _ => Except.ok false)).stage
        ≠ "postcondition"
    ∧ (executeFlow Nat Nat (Except.ok 0) (Except.ok 0) (fun _ _ => Except.ok false)).stage
        = "done"
    ∧ (executeFlow Nat Nat (Except.ok 0) (Except.ok 0) (fun _ _ => Except.ok false)).ok
        = false
    ∧ (executeFlow Nat Nat (Except.ok 0) (Except.ok 0) (fun _ _ => Except.ok false)).error
        = some "Postcondition returned false" := by
  refine ⟨by decide, rfl, rfl, rfl⟩

/-- C2 amended: a postcondition returning false yields ok false at stage done
with message exactly Postcondition returned false, while a raising
postcondition yields stage postcondition carrying the raised message under
Postcondition error; the two outcomes are distinguishable by their stage. -/
theorem c2_postcondition_false_versus_raise (P A : Type) (p : P) (a : A) (msg : String) :
    executeFlow P A (Except.ok p) (Except.ok a) (fun _ _ => Except.ok false)
      = ⟨false, "done", some p, some a, some "Postcondition returned false"⟩
    ∧ executeFlow P A (Except.ok p) (Except.ok a) (fun _ _ => Except.error msg)
      = ⟨false, "postcondition", some p, some a, some ("Postcondition error: " ++ msg)⟩
    ∧ (executeFlow P A (Except.ok p) (Except.ok a) (fun _ _ => Except.ok false)).stage
      ≠ (executeFlow P A (Except.ok p) (Except.ok a) (fun _ _ => Except.error msg)).stage := by
  refine ⟨rfl, rfl, ?_⟩
  show ("done" : String) ≠ "postcondition"
  decide

/-- C3: in the instrumented pipeline each stage counter grows by at most one
in a run, whatever the stage outcomes are (no stage runs twice, no automatic
retry); a raising precondition leaves the action and postcondition counters
untouched and terminates the run at stage precondition; a raising action
leaves the postcondition counter untouched and terminates at stage action. -/
theorem c3_stages_at_most_once (P A : Type)
    (preO : StageCounters → Except String P)
    (actO : StageCounters → Except String A)
    (postO : P → A → StageCounters → Except String Bool)
    (c : StageCounters) (msg : String) (p : P) :
    ((instrumentedFlow P A preO actO postO c).1.preCalls ≤ c.preCalls + 1
      ∧ (instrumentedFlow P A preO actO postO c).1.actCalls ≤ c.actCalls + 1
      ∧ (instrumentedFlow P A preO actO postO c).1.postCalls ≤ c.postCalls + 1)
    ∧ instrumentedFlow P A (fun _ => Except.error msg) actO postO c
      = (⟨c.preCalls + 1, c.actCalls, c.postCalls⟩,
         ⟨false, "precondition", none, none, some ("Precondition error: " ++ msg)⟩)
    ∧ instrumentedFlow P A (fun _ => Except.ok p) (fun _ => Except.error msg) postO c
      = (⟨c.preCalls + 1, c.actCalls + 1, c.postCalls⟩,
         ⟨false, "action", some p, none, some ("Action error: " ++ msg)⟩) := by
  refine ⟨?_, rfl, rfl⟩
  simp only [instrumentedFlow, executeFlowW]
  rcases h1 : preO c with e1 | p1 <;> simp only [h1]
  · exact ⟨Nat.le_refl _, Nat.le_succ _, Nat.le_succ _⟩
  · rcases h2 : actO ⟨c.preCalls + 1, c.actCalls, c.postCalls⟩ with e2 | a2 <;> simp only [h2]
    · exact ⟨Nat.le_refl _, Nat.le_refl _, Nat.le_succ _⟩
    · rcases h3 : postO p1 a2 ⟨c.preCalls + 1, c.actCalls + 1, c.postCalls⟩ with e3 | b3 <;>
        simp only [h3] <;> exact ⟨Nat.le_refl _, Nat.le_refl _, Nat.le_refl _⟩

/-- C4 counterexample: on two equal same-typed float operands with float
epsilon 0, approxEqualAbs does not return true as the claim requires; it
throws the BigInt TypeError, because the type gate rejects every non-BigInt
operand, not only heterogeneous pairs. -/
theorem c4_same_typed_float_counterexample :
    approxEqualAbs (JsNum.numberV 1) (JsNum.numberV 1) (JsNum.numberV 0)
      = Except.error "Use BigInt for a, b, and epsilon"
    ∧ approxEqualAbs (JsNum.numberV 1) (JsNum.numberV 1) (JsNum.numberV 0)
      ≠ Except.ok true := by
  refine ⟨rfl, ?_⟩
  intro h
  exact Except.noConfusion h

/-- C4 amended: approxEqualAbs computes the truth of the absolute-difference
bound on BigInt operands, is reflexive with epsilon 0 and symmetric in its
first two arguments, and yields the TypeError whenever any of the three
operands is not a BigInt. -/
theorem c4_approx_equal_abs_bigint_only :
    (∀ x y e : Int,
        approxEqualAbs (JsNum.bigintV x) (JsNum.bigintV y) (JsNum.bigintV e)
          = Except.ok (decide (|x - y| ≤ e)))
    ∧ (∀ x : Int,
        approxEqualAbs (JsNum.bigintV x) (JsNum.bigintV x) (JsNum.bigintV 0)
          = Except.ok true)
    ∧ (∀ a b e : JsNum, approxEqualAbs a b e = approxEqualAbs b a e)
    ∧ (∀ a b e : JsNum,
        JsNum.isBigInt a = false ∨ JsNum.isBigInt b = false ∨ JsNum.isBigInt e = false
          → approxEqualAbs a b e = Except.error "Use BigInt for a, b, and epsilon") := by
  refine ⟨fun x y e => ?_, fun x => ?_, fun a b e => ?_, fun a b e h => ?_⟩
  · show Except.ok (decide ((if y ≤ x then x - y else y - x) ≤ e)) = _
    rw [if_sub_eq_abs]
  · show Except.ok (decide ((if x ≤ x then x - x else x - x) ≤ 0)) = _
    simp
  · cases a <;> cases b <;> cases e <;> try rfl
    case bigintV.bigintV.bigintV x y z =>
      show Except.ok (decide ((if y ≤ x then x - y else y - x) ≤ z))
        = Except.ok (decide ((if x ≤ y then y - x else x - y) ≤ z))
      rw [if_sub_eq_abs, if_sub_eq_abs, abs_sub_comm]
  · cases a <;> cases b <;> cases e <;> first
      | rfl
      | (simp [JsNum.isBigInt] at h)

/-- C4 witness: the error branch of the amended theorem applied at a concrete
mixed-type input. -/
theorem c4_approx_equal_abs_bigint_only_witness :
    approxEqualAbs (JsNum.numberV 2) (JsNum.bigintV 0) (JsNum.bigintV 0)
      = Except.error "Use BigInt for a, b, and epsilon" :=
  c4_approx_equal_abs_bigint_only.2.2.2 _ _ _ (Or.inl rfl)

/-- C5 counterexample: at the Alpha share bit pattern 2^64 - 1 the per-hotkey
accumulation of the staking rule, which converts the 64-bit fraction with the
lossy Number conversion, yields exactly 1, while the exact arbitrary-precision
sum demanded by the claim is (2^64 - 1) / 2^64; the two differ, so the rule
does not accumulate with the exact decoder or arbitrary-precision integers. -/
theorem c5_float_accumulation_counterexample :
    sumAlphaShares [2 ^ 64 - 1] = 1
    ∧ specExactAlphaSum [2 ^ 64 - 1] = (2 ^ 64 - 1 : ℚ) / 2 ^ 64
    ∧ sumAlphaShares [2 ^ 64 - 1] ≠ specExactAlphaSum [2 ^ 64 - 1] := by
  have hs : sumAlphaShares [2 ^ 64 - 1] = 1 := by
    unfold sumAlphaShares
    simp only [List.foldl]
    rw [fixedU64F64ToFloat_div_mod]
    have h1 : (2 ^ 64 - 1 : Nat) / 2 ^ 64 = 0 := by norm_num
    have h2 : (2 ^ 64 - 1 : Nat) % 2 ^ 64 = 2 ^ 64 - 1 := by norm_num
    rw [h1, h2]
    have h3 : jsNumber 0 = 0 := rfl
    have h4 : jsNumber (2 ^ 64 - 1) = 2 ^ 64 := rfl
    rw [h3, h4]
    norm_num
  have he : specExactAlphaSum [2 ^ 64 - 1] = (2 ^ 64 - 1 : ℚ) / 2 ^ 64 := by
    unfold specExactAlphaSum fixedU64F64ToBigNumber
    simp only [List.foldl]
    have h1 : (2 ^ 64 - 1 : Nat) / 2 ^ 64 = 0 := by norm_num
    have h2 : (2 ^ 64 - 1 : Nat) % 2 ^ 64 = 2 ^ 64 - 1 := by norm_num
    rw [h1, h2]
    push_cast
    norm_num
  refine ⟨hs, he, ?_⟩
  rw [hs, he]
  norm_num

/-- C5 amended: the per-hotkey comparison of the staking rule passes exactly
when the float-decoded stored total is within absolute epsilon expected/1000
of the float-accumulated expected sum; at equal float values (share and total
both decoding to 1) it passes, and at a stored total decoding to 2 against an
expected sum of 1 it reports a violation. -/
theorem c5_staking_share_tolerance :
    (∀ (shareBits : List Nat) (totalBits : Nat),
        stakingShareViolation shareBits totalBits = false
          ↔ |fixedU64F64ToFloatFromHexString totalBits - sumAlphaShares shareBits|
              ≤ sumAlphaShares shareBits / 1000)
    ∧ stakingShareViolation [2 ^ 64] (2 ^ 64) = false
    ∧ stakingShareViolation [2 ^ 64] (2 ^ 65) = true := by
  have hsum : sumAlphaShares [2 ^ 64] = 1 := by
    unfold sumAlphaShares
    simp only [List.foldl]
    rw [fixedU64F64ToFloat_at_pow64]
    norm_num
  have hiff : ∀ (shareBits : List Nat) (totalBits : Nat),
      stakingShareViolation shareBits totalBits = false
        ↔ |fixedU64F64ToFloatFromHexString totalBits - sumAlphaShares shareBits|
            ≤ sumAlphaShares shareBits / 1000 := by
    intro shareBits totalBits
    simp only [stakingShareViolation, approxEqualAbsNumber]
    rw [if_sub_eq_abs]
    simp
  refine ⟨hiff, ?_, ?_⟩
  · rw [hiff]
    rw [hsum, fixedU64F64ToFloat_at_pow64]
    norm_num
  · cases hb : stakingShareViolation [2 ^ 64] (2 ^ 65)
    · exfalso
      have := (hiff [2 ^ 64] (2 ^ 65)).mp hb
      rw [hsum, fixedU64F64ToFloat_at_pow65] at this
      norm_num at this
    · rfl

/-- C6 counterexample: on the self-loop graph with the single edge from A to
A, the cycle detection emits two violations, not exactly one: the dedicated
self-loop violation and the generic back-edge cycle violation, both
referencing A. -/
theorem c6_self_loop_counterexample :
    checkCycles [("A", ["A"])]
      = [CycleViolation.selfLoop "A", CycleViolation.cycle ["A", "A"]]
    ∧ (checkCycles [("A", ["A"])]).length ≠ 1 := by
  refine ⟨rfl, by decide⟩

/-- C6 amended: the chain graph A to B to C yields no violation, the
two-cycle between A and B yields exactly one cycle violation with the full
path, and the self-loop at A yields exactly two violations, a self-loop
violation and a back-edge cycle violation, both referencing A. -/
theorem c6_cycle_detection :
    checkCycles [("A", ["B"]), ("B", ["C"]), ("C", [])] = []
    ∧ checkCycles [("A", ["B"]), ("B", ["A"])] = [CycleViolation.cycle ["A", "B", "A"]]
    ∧ checkCycles [("A", ["A"])]
      = [CycleViolation.selfLoop "A", CycleViolation.cycle ["A", "A"]] := by
  refine ⟨rfl, rfl, rfl⟩

/-- C7: evaluation of the subnet selection of checkLiquidity at a failing
input.  With eleven dtao subnets 0..10, the dtao filter keeps all of them,
yet the rule iterates only the single subnet at index 9; with two dtao
subnets the iterated list is the single undefined entry.  Subnet 0 is a dtao
subnet that the rule never checks. -/
theorem c7_liquidity_checks_single_subnet :
    dtaoNetuids [0, 1, 2, 3, 4, 5, 6, 7, 8, 9, 10] (fun _ => 1)
      = [0, 1, 2, 3, 4, 5, 6, 7, 8, 9, 10]
    ∧ liquidityCheckedNetuids [0, 1, 2, 3, 4, 5, 6, 7, 8, 9, 10] (fun _ => 1) = [some 9]
    ∧ liquidityCheckedNetuids [0, 1] (fun _ => 1) = [none]
    ∧ some 0 ∉ liquidityCheckedNetuids [0, 1, 2, 3, 4, 5, 6, 7, 8, 9, 10] (fun _ => 1) := by
  refine ⟨rfl, rfl, rfl, by decide⟩

/-- C8 counterexample: on the maps of the claim, A mapping 1 to x and 2 to y,
B mapping x to 1 and y to 2, with N = 2, the rule emits two violations
instead of zero: the UID keys 1 and 2 fail the additional check that the UID
set equals 0..N-1, on both sides. -/
theorem c8_bijection_example_counterexample :
    checkKeysUidsCore [(1, "x"), (2, "y")] [("x", 1), ("y", 2)] 2
      = [KUViolation.keysUidRange, KUViolation.uidsUidRange]
    ∧ checkKeysUidsCore [(1, "x"), (2, "y")] [("x", 1), ("y", 2)] 2 ≠ [] := by
  refine ⟨rfl, by decide⟩

/-- C8 amended: with UIDs taken from 0..N-1, the mutually inverse pair A
mapping 0 to x and 1 to y, B mapping x to 0 and y to 1, N = 2, passes with
zero violations, and the duplicate-value variant of B mapping both x and y
to 0 emits at least one violation. -/
theorem c8_bijection_rule :
    checkKeysUidsCore [(0, "x"), (1, "y")] [("x", 0), ("y", 1)] 2 = []
    ∧ checkKeysUidsCore [(0, "x"), (1, "y")] [("x", 0), ("y", 0)] 2 ≠ [] := by
  refine ⟨rfl, by decide⟩

/-- C9 counterexample: a PendingChildKeys entry whose proportion list is
empty has sum 0, which lies outside the interval from 0 exclusive to SCALE
inclusive, yet the rule reports no violation for it. -/
theorem c9_pending_zero_sum_counterexample :
    pendingChildKeysSumViolation [] = false
    ∧ propSum [] = 0
    ∧ ¬ (0 < propSum [] ∧ propSum [] ≤ SCALE) := by
  refine ⟨rfl, rfl, by decide⟩

/-- C9 amended: for ChildKeys a violation is reported exactly when the
proportion sum falls outside the interval from 0 exclusive to SCALE
inclusive; for PendingChildKeys a violation is reported exactly when the sum
exceeds SCALE, so a zero sum is accepted there. -/
theorem c9_proportion_sum_checks (proportions : List Nat) :
    (childKeysSumViolation proportions = true
      ↔ ¬ (0 < propSum proportions ∧ propSum proportions ≤ SCALE))
    ∧ (pendingChildKeysSumViolation proportions = true
      ↔ SCALE < propSum proportions) := by
  unfold childKeysSumViolation pendingChildKeysSumViolation SCALE
  constructor
  · simp only [Bool.or_eq_true, decide_eq_true_eq]
    omega
  · simp only [decide_eq_true_eq]

/-- Helper: the decoded float Q64.64 value is nonnegative. -/
theorem fixedU64F64ToFloat_nonneg (b : Nat) :
    0 ≤ fixedU64F64ToFloatFromHexString b := by
  unfold fixedU64F64ToFloatFromHexString
  positivity

/-- Helper: value of the float Q64.64 decoder at the bit pattern 2^64 - 1;
the Number conversion of the 64-bit fraction rounds it up to 2^64, so the
decoded value is exactly 1. -/
theorem fixedU64F64ToFloat_at_pow64_sub_one :
    fixedU64F64ToFloatFromHexString (2 ^ 64 - 1) = 1 := by
  rw [fixedU64F64ToFloat_div_mod]
  have h1 : (2 ^ 64 - 1 : Nat) / 2 ^ 64 = 0 := by norm_num
  have h2 : (2 ^ 64 - 1 : Nat) % 2 ^ 64 = 2 ^ 64 - 1 := by norm_num
  rw [h1, h2]
  have h3 : jsNumber 0 = 0 := rfl
  have h4 : jsNumber (2 ^ 64 - 1) = 2 ^ 64 := rfl
  rw [h3, h4]
  norm_num

/-- C10 counterexample: on the storage contents with Alpha share bits
2^64 - 1, TotalHotkeyShares bits 2^64 and TotalHotkeyAlpha 1, the
unstakeContract.js getStake returns 1, because the float decoding rounds the
share to 1 before the quotient is taken, while the full-precision integer
quotient hotkeyAlpha * alphaShare / totalShares stated by the claim — the
value the utils.js variant returns on the same storage — is 0.  The cited
implementation therefore does not return the quotient computed in
full-precision integer arithmetic. -/
theorem c10_float_get_stake_counterexample :
    getStakeUnstake (2 ^ 64 - 1) (2 ^ 64) 1 = 1
    ∧ getStake (2 ^ 64 - 1) (2 ^ 64) 1 = 0
    ∧ getStakeUnstake (2 ^ 64 - 1) (2 ^ 64) 1 ≠ getStake (2 ^ 64 - 1) (2 ^ 64) 1 := by
  have hu : getStakeUnstake (2 ^ 64 - 1) (2 ^ 64) 1 = 1 := by
    simp only [getStakeUnstake]
    rw [fixedU64F64ToFloat_at_pow64_sub_one, fixedU64F64ToFloat_at_pow64]
    norm_num
  have hg : getStake (2 ^ 64 - 1) (2 ^ 64) 1 = 0 := by
    unfold getStake
    rw [if_neg (by norm_num)]
    decide
  exact ⟨hu, hg, by rw [hu, hg]; decide⟩

/-- C10 amended: both getStake variants are total, guard the zero total
before any division, and produce nonnegative integer results on the unsigned
wire values; the utils.js variant returns the claimed quotient
hotkeyAlpha * alphaShare / totalShares in full-precision integer arithmetic,
while the unstakeContract.js variant truncates a double-precision float
quotient of the lossily decoded operands, which can differ from the
full-precision result. -/
theorem c10_get_stake_variants :
    (∀ alphaShare totalShares hotkeyAlpha : Int,
        0 ≤ alphaShare → 0 ≤ totalShares → 0 ≤ hotkeyAlpha →
          0 ≤ getStake alphaShare totalShares hotkeyAlpha
          ∧ (totalShares = 0 → getStake alphaShare totalShares hotkeyAlpha = 0)
          ∧ (totalShares ≠ 0
              → getStake alphaShare totalShares hotkeyAlpha
                  = Int.tdiv (hotkeyAlpha * alphaShare) totalShares))
    ∧ (∀ alphaShareBits totalSharesBits hotkeyAlpha : Nat,
        0 ≤ getStakeUnstake alphaShareBits totalSharesBits hotkeyAlpha
        ∧ (fixedU64F64ToFloatFromHexString totalSharesBits = 0
            → getStakeUnstake alphaShareBits totalSharesBits hotkeyAlpha = 0)) := by
  constructor
  · intro alphaShare totalShares hotkeyAlpha h1 h2 h3
    refine ⟨?_, fun h => by simp [getStake, h], fun h => by simp [getStake, h]⟩
    unfold getStake
    split
    · exact le_refl 0
    · exact Int.tdiv_nonneg (mul_nonneg h3 h1) h2
  · intro alphaShareBits totalSharesBits hotkeyAlpha
    constructor
    · simp only [getStakeUnstake]
      split
      · exact le_refl 0
      · refine Int.le_floor.mpr ?_
        push_cast
        exact div_nonneg
          (mul_nonneg (fixedU64F64ToFloat_nonneg alphaShareBits) (Nat.cast_nonneg _))
          (fixedU64F64ToFloat_nonneg totalSharesBits)
    · intro h
      simp only [getStakeUnstake]
      rw [if_pos h]

/-- C10 witness: the integer branch of the amended theorem applied at
alphaShare 3, totalShares 2 and hotkeyAlpha 4 (stake 6), and the float
branch applied at the all-zero storage. -/
theorem c10_get_stake_variants_witness :
    0 ≤ getStake 3 2 4 ∧ getStake 3 2 4 = 6 ∧ 0 ≤ getStakeUnstake 0 0 0 :=
  ⟨(c10_get_stake_variants.1 3 2 4 (by decide) (by decide) (by decide)).1,
   by decide,
   (c10_get_stake_variants.2 0 0 0).1⟩
